import Mathlib

/-!
Verification of the Conversation Session Engine of the AI-VN-RP repository.

This file gives a shallow embedding, in Lean 4, of the parts of the
TypeScript source that the verified properties are about:

* the data model (`Character`, `Message`, chat history) from `types.ts`;
* the response parser `getAIResponse` from `services/geminiService.ts`,
  including a model of JavaScript `JSON.parse` restricted to the JSON
  grammar (strings, numbers as exact rationals, arrays, objects,
  booleans, null);
* the session handlers `handleSendMessage`, `handleRegenerate`,
  `handleEditMessage`, `handleDeleteMessage`, `handleUpdateIndicator`,
  `handleImportCharacters` and the character migration step of
  `loadData` from the application component;
* persistence (`saveChatHistory` / `saveCharacter`) modelled as fields
  of an explicit `Session` state record, so that "in-memory" and
  "persisted" values can be compared.

JavaScript numbers are modelled as `Rat` (every value `JSON.parse` can
produce from a numeric literal is a decimal rational); machine floats
do not occur in the verified paths.  React state setters become pure
record updates; `await`ed IndexedDB writes are modelled as infallible
updates of the corresponding `stored*` field.
-/

/-- Message sender, the `'user' | 'ai' | 'system'` union of `types.ts`. -/
inductive Sender where
  | user
  | ai
  | system
deriving DecidableEq, Repr

/-- One chat turn, the `Message` interface of `types.ts`.
`isTyping` is a transient UI flag that never reaches persistence and is
not part of any verified property, so it is not modelled. -/
structure Message where
  id : String
  sender : Sender
  text : String
  emotion : Option String
deriving DecidableEq, Repr

/-- The `indicator` field of a `Character` (`{name, value}`). -/
structure Indicator where
  name : String
  value : Rat
deriving DecidableEq, Repr

/-- The optional `transform` field (`{x, y, scale}`). -/
structure Transform where
  x : Rat
  y : Rat
  scale : Rat
deriving DecidableEq, Repr

/-- The `Character` interface of `types.ts`.  `sprites` is a JavaScript
object (emotion label to image reference); it is modelled as an
association list in insertion order, so `Object.keys` is `map Prod.fst`. -/
structure Character where
  id : String
  name : String
  personality : String
  visualDescription : String
  greeting : Option String
  emotions : List String
  sprites : List (String × String)
  sceneImageUrl : Option String
  transform : Option Transform
  indicator : Indicator
  systemInstruction : Option String
deriving DecidableEq, Repr

/-- A raw character record as read from the database or from an import
file: every field that the migration / import code tests for presence is
optional here (old records and foreign files may lack them).  A field
that is `none` models a missing / `undefined` JavaScript property. -/
structure RawCharacter where
  id : Option String
  name : Option String
  personality : Option String
  visualDescription : Option String
  greeting : Option String
  emotions : Option (List String)
  sprites : Option (List (String × String))
  sceneImageUrl : Option String
  indicator : Option Indicator
  systemInstruction : Option String
deriving DecidableEq, Repr

/-- The parsed model reply produced by `getAIResponse`
(`{ dialogue, emotion, indicatorValue }`, with `indicatorValue : number | null`). -/
structure Reply where
  dialogue : String
  emotion : String
  indicatorValue : Option Rat
deriving DecidableEq, Repr

/-- JSON values, the possible results of JavaScript `JSON.parse`. -/
inductive Json where
  | null
  | bool (b : Bool)
  | num (q : Rat)
  | str (s : String)
  | arr (elems : List Json)
  | obj (fields : List (String × Json))

/-- The `{` character (written via its code point). -/
def lbrace : Char := Char.ofNat 123

/-- The `}` character (written via its code point). -/
def rbrace : Char := Char.ofNat 125

/-- JSON insignificant whitespace (space, tab, line feed, carriage return). -/
def isJsonWs (c : Char) : Bool :=
  c = ' ' || c = '\t' || c = '\n' || c = '\r'

/-- Drop leading JSON whitespace. -/
def skipWs : List Char → List Char
  | [] => []
  | c :: rest => if isJsonWs c then skipWs rest else c :: rest

/-- Value of one hexadecimal digit. -/
def hexVal (c : Char) : Option Nat :=
  if c.isDigit then some (c.toNat - 48)
  else if 'a' ≤ c ∧ c ≤ 'f' then some (c.toNat - 87)
  else if 'A' ≤ c ∧ c ≤ 'F' then some (c.toNat - 55)
  else none

/-- Parse the body of a JSON string (the opening quote already consumed),
handling the JSON escape sequences.  `\uXXXX` is mapped to the character
with that code point (surrogate pairs are not recombined; no verified
input contains them).  Fueled so that the kernel can evaluate it. -/
def parseStringAux : Nat → List Char → List Char → Option (String × List Char)
  | 0, _, _ => none
  | fuel + 1, acc, input =>
    match input with
    | [] => none
    | c :: rest =>
      if c = '"' then some (String.mk acc.reverse, rest)
      else if c = '\\' then
        match rest with
        | [] => none
        | e :: r2 =>
          if e = '"' then parseStringAux fuel ( '"' :: acc) r2
          else if e = '\\' then parseStringAux fuel ( '\\' :: acc) r2
          else if e = '/' then parseStringAux fuel ( '/' :: acc) r2
          else if e = 'b' then parseStringAux fuel (Char.ofNat 8 :: acc) r2
          else if e = 'f' then parseStringAux fuel (Char.ofNat 12 :: acc) r2
          else if e = 'n' then parseStringAux fuel ( '\n' :: acc) r2
          else if e = 'r' then parseStringAux fuel ( '\r' :: acc) r2
          else if e = 't' then parseStringAux fuel ( '\t' :: acc) r2
          else if e = 'u' then
            match r2 with
            | h1 :: h2 :: h3 :: h4 :: r3 =>
              match hexVal h1, hexVal h2, hexVal h3, hexVal h4 with
              | some a, some b, some c3, some d =>
                parseStringAux fuel (Char.ofNat (((a * 16 + b) * 16 + c3) * 16 + d) :: acc) r3
              | _, _, _, _ => none
            | _ => none
          else none
      else if c.toNat < 32 then none
      else parseStringAux fuel (c :: acc) rest

/-- Digits to a natural number. -/
def digitsToNat (ds : List Char) : Nat :=
  ds.foldl (fun acc c => acc * 10 + (c.toNat - 48)) 0

/-- Exact rational value of a JSON numeric literal with sign `neg`,
integer digits `di`, fraction digits `df` and decimal exponent `e`. -/
def jsonNumber (neg : Bool) (di df : List Char) (e : Int) : Rat :=
  let n := digitsToNat (di ++ df)
  let q : Rat :=
    if 0 ≤ e then mkRat (n * 10 ^ e.toNat) (10 ^ df.length)
    else mkRat n (10 ^ df.length * 10 ^ (-e).toNat)
  if neg then -q else q

/-- Parse an optional JSON fraction part (`.` followed by digits). -/
def parseFrac : List Char → Option (List Char × List Char)
  | '.' :: rest =>
    let df := rest.takeWhile Char.isDigit
    if df.isEmpty then none else some (df, rest.dropWhile Char.isDigit)
  | input => some ([], input)

/-- Parse an optional JSON exponent part (`e`/`E`, optional sign, digits). -/
def parseExp : List Char → Option (Int × List Char)
  | [] => some (0, [])
  | c :: rest =>
    if c = 'e' || c = 'E' then
      let signedRest : Bool × List Char :=
        match rest with
        | '+' :: r2 => (false, r2)
        | '-' :: r2 => (true, r2)
        | _ => (false, rest)
      let ds := signedRest.2.takeWhile Char.isDigit
      if ds.isEmpty then none
      else
        let n : Int := Int.ofNat (digitsToNat ds)
        some ((if signedRest.1 then -n else n), signedRest.2.dropWhile Char.isDigit)
    else some (0, c :: rest)

/-- Parse a JSON number literal (strict grammar: optional minus, `0` or a
digit run without a leading zero, optional fraction, optional exponent). -/
def parseNumber (input : List Char) : Option (Rat × List Char) :=
  let signed : Bool × List Char :=
    match input with
    | '-' :: rest => (true, rest)
    | _ => (false, input)
  let di := signed.2.takeWhile Char.isDigit
  let r2 := signed.2.dropWhile Char.isDigit
  if di.isEmpty then none
  else if di.length > 1 && di.head? = some '0' then none
  else
    match parseFrac r2 with
    | none => none
    | some (df, r3) =>
      match parseExp r3 with
      | none => none
      | some (e, r4) => some (jsonNumber signed.1 di df e, r4)

/-- Member loop of a JSON object, parameterized by the value parser so the
whole parser is structurally recursive on fuel. -/
def parseMembersLoop (pv : List Char → Option (Json × List Char)) :
    Nat → List Char → List (String × Json) → Option (Json × List Char)
  | 0, _, _ => none
  | fuel + 1, input, acc =>
    match skipWs input with
    | [] => none
    | c :: rest =>
      if c = '"' then
        match parseStringAux (rest.length + 1) [] rest with
        | none => none
        | some (k, r1) =>
          match skipWs r1 with
          | ':' :: r2 =>
            match pv r2 with
            | none => none
            | some (v, r3) =>
              match skipWs r3 with
              | [] => none
              | c2 :: r4 =>
                if c2 = ',' then parseMembersLoop pv fuel r4 (acc ++ [(k, v)])
                else if c2 = rbrace then some (Json.obj (acc ++ [(k, v)]), r4)
                else none
          | _ => none
      else none

/-- Element loop of a JSON array, parameterized by the value parser. -/
def parseElemsLoop (pv : List Char → Option (Json × List Char)) :
    Nat → List Char → List Json → Option (Json × List Char)
  | 0, _, _ => none
  | fuel + 1, input, acc =>
    match pv input with
    | none => none
    | some (v, r1) =>
      match skipWs r1 with
      | [] => none
      | c :: r2 =>
        if c = ',' then parseElemsLoop pv fuel r2 (acc ++ [v])
        else if c = ']' then some (Json.arr (acc ++ [v]), r2)
        else none

/-- Parse one JSON value.  Fuel decreases at each nesting level; each
level consumes at least one input character, so `length + 1` fuel always
suffices at top level. -/
def parseValue : Nat → List Char → Option (Json × List Char)
  | 0, _ => none
  | fuel + 1, input =>
    match skipWs input with
    | [] => none
    | c :: rest =>
      if c = '"' then
        match parseStringAux (rest.length + 1) [] rest with
        | some (s, r) => some (Json.str s, r)
        | none => none
      else if c = 'n' then
        match rest with
        | 'u' :: 'l' :: 'l' :: r => some (Json.null, r)
        | _ => none
      else if c = 't' then
        match rest with
        | 'r' :: 'u' :: 'e' :: r => some (Json.bool true, r)
        | _ => none
      else if c = 'f' then
        match rest with
        | 'a' :: 'l' :: 's' :: 'e' :: r => some (Json.bool false, r)
        | _ => none
      else if c = lbrace then
        match skipWs rest with
        | [] => none
        | c2 :: r2 =>
          if c2 = rbrace then some (Json.obj [], r2)
          else parseMembersLoop (parseValue fuel) (rest.length + 1) (c2 :: r2) []
      else if c = '[' then
        match skipWs rest with
        | [] => none
        | c2 :: r2 =>
          if c2 = ']' then some (Json.arr [], r2)
          else parseElemsLoop (parseValue fuel) (rest.length + 1) (c2 :: r2) []
      else
        match parseNumber (c :: rest) with
        | some (q, r) => some (Json.num q, r)
        | none => none

/-- Model of JavaScript `JSON.parse` on the JSON grammar: `some` is a
successful parse of the whole input, `none` is a thrown `SyntaxError`. -/
def jsonParse (s : String) : Option Json :=
  match parseValue (s.length + 1) s.data with
  | some (j, rest) => if (skipWs rest).isEmpty then some j else none
  | none => none

/-- Property access `j[k]` on a parsed JSON value, as JavaScript sees it:
only objects have data properties; with duplicate keys `JSON.parse`
keeps the last occurrence, so lookup prefers the last matching field.
`none` models `undefined` (or the `TypeError` of accessing a property of
`null`, which the caller's catch also absorbs). -/
def Json.getField : Json → String → Option Json
  | Json.obj fields, k => fields.foldl (fun acc f => if f.1 = k then some f.2 else acc) none
  | _, _ => none

/-- Whether the first list starts with the second (character-wise). -/
def listStartsWith : List Char → List Char → Bool
  | _, [] => true
  | [], _ :: _ => false
  | c :: cs, p :: ps => c = p && listStartsWith cs ps

/-- JavaScript `String.prototype.startsWith`, character-wise. -/
def strStartsWith (s p : String) : Bool := listStartsWith s.data p.data

/-- JavaScript `String.prototype.endsWith`, character-wise. -/
def strEndsWith (s p : String) : Bool := listStartsWith s.data.reverse p.data.reverse

/-- JavaScript `s.substring(n)`: drop the first `n` characters. -/
def strDrop (s : String) (n : Nat) : String := String.mk (s.data.drop n)

/-- JavaScript `s.substring(0, s.length - n)`: drop the last `n` characters. -/
def strDropRight (s : String) (n : Nat) : String :=
  String.mk (s.data.take (s.data.length - n))

/-- JavaScript `String.prototype.trim`: strip leading and trailing
whitespace. -/
def jsTrim (s : String) : String :=
  String.mk (((s.data.dropWhile Char.isWhitespace).reverse.dropWhile Char.isWhitespace).reverse)

/-- `services/geminiService.ts`: the fence-stripping step of
`getAIResponse`.  `substring(7)` fires only when the trimmed text starts
with the seven characters ```` ```json ````; `substring(0, length - 3)`
fires when the (possibly already shortened) text ends with ```` ``` ````. -/
def stripFence (t : String) : String :=
  let t1 := if strStartsWith t "```json" then strDrop t 7 else t
  if strEndsWith t1 "```" then strDropRight t1 3 else t1

/-- The fixed fallback reply of `getAIResponse`
(`{ dialogue: "I'm sorry, I had trouble forming a response.", emotion: 'sad', indicatorValue: null }`). -/
def fallbackReply : Reply :=
  { dialogue := "I\x27m sorry, I had trouble forming a response."
    emotion := "sad"
    indicatorValue := none }

/-- The field validation of `getAIResponse`: `dialogue` and `emotion`
must be strings (`typeof … === 'string'`); `indicatorValue` is kept when
it is a number and replaced by `null` otherwise.  `none` models the
`throw new Error('Invalid JSON structure in AI response.')`. -/
def extractReply (j : Json) : Option Reply :=
  match j.getField "dialogue", j.getField "emotion" with
  | some (Json.str d), some (Json.str e) =>
    let indicatorValue : Option Rat :=
      match j.getField "indicatorValue" with
      | some (Json.num q) => some q
      | _ => none
    some { dialogue := d, emotion := e, indicatorValue := indicatorValue }
  | _, _ => none

/-- `services/geminiService.ts` `getAIResponse`.  The argument models the
outcome of `await chat.sendMessage({ message: userInput })`: `Except.error`
is a rejected model call, `Except.ok raw` a response whose `.text` is
`raw`.  The whole body of the source function sits inside one
`try`/`catch`, so a failure at any step — the model call itself, the
`JSON.parse`, or the field validation — lands in the catch and produces
`fallbackReply`; the function never throws. -/
def getAIResponse (modelResult : Except Unit String) : Reply :=
  match modelResult with
  | Except.error _ => fallbackReply
  | Except.ok raw =>
    let jsonText := stripFence (jsTrim raw)
    match jsonParse jsonText with
    | none => fallbackReply
    | some parsed =>
      match extractReply parsed with
      | some r => r
      | none => fallbackReply

/-- Role of a turn in the model-side history (`Content.role`). -/
inductive Role where
  | user
  | model
deriving DecidableEq, Repr

/-- One model-side history entry (`Content` with a single text part). -/
structure HistoryTurn where
  role : Role
  text : String
deriving DecidableEq, Repr

/-- `convertMessagesToHistory` from the application component: keep only
`user`/`ai` messages, map `user` to role `user` and `ai` to role `model`. -/
def convertMessagesToHistory (messages : List Message) : List HistoryTurn :=
  (messages.filter (fun msg => decide (msg.sender = Sender.user) || decide (msg.sender = Sender.ai))).map
    (fun msg =>
      { role := if msg.sender = Sender.user then Role.user else Role.model
        text := msg.text })

/-- The conversation-session state relevant to the verified properties.
`messages` is the React `messages` state; `storedHistory` is the
persisted chat history of the current character (`saveChatHistory`);
`currentCharacter` is the React state, `storedCharacter` the persisted
record (`saveCharacter`); `modelHistory` is the history the model-side
chat was last (re)created from (`initializeChat`).  The session is
modelled in its steady state: a character is selected, a chat exists and
no call is in flight (`isLoading = false`), which are the guard
conditions every handler checks first. -/
structure Session where
  messages : List Message
  storedHistory : List Message
  currentCharacter : Character
  storedCharacter : Character
  modelHistory : List HistoryTurn
deriving DecidableEq, Repr

/-- `initializeChat(char, history)`: recreate the model-side chat from
the given history.  The source also re-renders the system-instruction
template; the rendered text takes part in no verified property and is
elided.  Modelled effect: the model-side context becomes
`convertMessagesToHistory history`. -/
def initChat (s : Session) (history : List Message) : Session :=
  { s with modelHistory := convertMessagesToHistory history }

/-- The `user` message `handleSendMessage` builds
(`{ id: `${Date.now()}-user`, sender: 'user', text: userInput }`);
`now` models the `Date.now()` timestamp. -/
def mkUserMessage (now : Nat) (text : String) : Message :=
  { id := toString now ++ "-user", sender := Sender.user, text := text, emotion := none }

/-- The emotion resolution `emotion || currentCharacter.emotions[0] || 'neutral'`
(JavaScript `||`: the empty string and `undefined` are falsy). -/
def resolveEmotion (emotion : String) (emotions : List String) : String :=
  if emotion ≠ "" then emotion
  else
    match emotions.head? with
    | some e => if e ≠ "" then e else "neutral"
    | none => "neutral"

/-- `handleSendMessage(userInput, isRegeneration)` from the application
component.  `now` models `Date.now()`; `modelResult` the outcome of the
model call inside `getAIResponse`.  Persistence (`saveChatHistory`,
`saveCharacter`) is modelled as infallible, so the `catch` branch of the
source — which appends a `system` error message when a step after the
model call throws (persistence failure) — is unreachable in this model;
note that a failed model call does NOT reach that branch in the source,
because `getAIResponse` catches it internally and returns `fallbackReply`. -/
def handleSendMessage (s : Session) (userInput : String) (isRegeneration : Bool)
    (now : Nat) (modelResult : Except Unit String) : Session :=
  if jsTrim userInput = "" then s
  else
    let messagesForAI :=
      if isRegeneration then s.messages
      else s.messages ++ [mkUserMessage now userInput]
    let s1 :=
      if isRegeneration then s
      else { s with messages := messagesForAI, storedHistory := messagesForAI }
    let reply := getAIResponse modelResult
    let aiMessage : Message :=
      { id := toString now ++ "-ai"
        sender := Sender.ai
        text := reply.dialogue
        emotion := some (resolveEmotion reply.emotion s.currentCharacter.emotions) }
    let finalMessages := messagesForAI ++ [aiMessage]
    let s2 := { s1 with messages := finalMessages, storedHistory := finalMessages }
    match reply.indicatorValue with
    | none => s2
    | some v =>
      let newIndicatorValue := max 0 (min 100 v)
      let updatedCharacter :=
        { s2.currentCharacter with
          indicator := { s2.currentCharacter.indicator with value := newIndicatorValue } }
      { s2 with currentCharacter := updatedCharacter, storedCharacter := updatedCharacter }

/-- `Array.prototype.findLast`: the last element satisfying the predicate. -/
def findLast (p : Message → Bool) : List Message → Option Message
  | [] => none
  | x :: xs =>
    match findLast p xs with
    | some y => some y
    | none => if p x then some x else none

/-- The alert text of the rejected regenerate. -/
def regenerateNotice : String := "Cannot regenerate the initial greeting."

/-- `handleRegenerate` from the application component.  The second
component of the result is the user-visible notice (`alert`), `none`
when no alert is shown.  `messages[messages.length - 1]` on an empty log
is `undefined`, whose `?.sender` is not `'ai'`, so the empty log returns
unchanged.

In the proceeding branch the source runs, in order:
`setMessages(messagesWithoutLastAI)`, `saveChatHistory(…, messagesWithoutLastAI)`,
`initializeChat(…, messagesWithoutLastAI)`, then the nested
`handleSendMessage(lastUserMessage.text, true)`.  The nested call is the
same render's closure: `setMessages` only schedules a re-render and does
not re-bind the `messages` const it captured, so inside the nested send
`messagesForAI = [...messages]` is still the PRE-truncation log,
including the trailing `ai` message.  The transient truncated state set
by `setMessages(messagesWithoutLastAI)` is overwritten by the send's own
`setMessages(finalMessages)` / `saveChatHistory(finalMessages)`; only
the model-side chat keeps the truncated view.  The model therefore
passes the updated store and model context into the nested send but
restores the stale closure log as its `messages`. -/
def handleRegenerate (s : Session) (now : Nat) (modelResult : Except Unit String) :
    Session × Option String :=
  match s.messages.getLast? with
  | none => (s, none)
  | some lastMessage =>
    if lastMessage.sender ≠ Sender.ai then (s, none)
    else
      let messagesWithoutLastAI := s.messages.dropLast
      match findLast (fun m => decide (m.sender = Sender.user)) messagesWithoutLastAI with
      | none => (s, some regenerateNotice)
      | some lastUserMessage =>
        let s1 := { s with messages := messagesWithoutLastAI
                           storedHistory := messagesWithoutLastAI }
        let s2 := initChat s1 messagesWithoutLastAI
        let stale := { s2 with messages := s.messages }
        (handleSendMessage stale lastUserMessage.text true now modelResult, none)

/-- `Array.prototype.findIndex(m => m.id === messageId)`: index of the
first message with the given id. -/
def findIndex (messages : List Message) (messageId : String) : Option Nat :=
  match messages with
  | [] => none
  | m :: rest =>
    if m.id = messageId then some 0 else (findIndex rest messageId).map (· + 1)

/-- `handleDeleteMessage(messageId)`: truncate the log to strictly before
the message's position, persist, and rebuild the model-side context. -/
def handleDeleteMessage (s : Session) (messageId : String) : Session :=
  match findIndex s.messages messageId with
  | none => s
  | some messageIndex =>
    let newMessages := s.messages.take messageIndex
    let s1 := { s with messages := newMessages, storedHistory := newMessages }
    initChat s1 newMessages

/-- `handleEditMessage(messageId, newText)`: truncate the log to and
including the message's position, overwrite that message's text
(`{ ...newMessages[messageIndex], text: newText }`), persist, and
rebuild the model-side context. -/
def handleEditMessage (s : Session) (messageId : String) (newText : String) : Session :=
  match findIndex s.messages messageId with
  | none => s
  | some messageIndex =>
    let truncated := s.messages.take (messageIndex + 1)
    let newMessages :=
      match truncated[messageIndex]? with
      | none => truncated
      | some msg => truncated.set messageIndex { msg with text := newText }
    let s1 := { s with messages := newMessages, storedHistory := newMessages }
    initChat s1 newMessages

/-- `handleUpdateIndicator(newValue)` (manual indicator override of the
variant application component): the character-record update that is both
set in memory and persisted via `saveCharacter`.  The appended `system`
notice message and the context rebuild touch no verified property of
this claim and are elided. -/
def handleUpdateIndicator (currentCharacter : Character) (newValue : Rat) : Character :=
  let newIndicatorValue := max 0 (min 100 newValue)
  { currentCharacter with
    indicator := { currentCharacter.indicator with value := newIndicatorValue } }

/-- The per-record migration step of `loadData` ("Data migration logic
for older character models").  Returns the migrated record together with
the `needsUpdate` flag that decides whether the caller persists it.
`Object.keys(newChar.sprites || {})` is the key list of the sprites map,
`[]` when `sprites` is missing. -/
def migrateCharacter (char : RawCharacter) : RawCharacter × Bool :=
  let emotionsMissing : Bool :=
    match char.emotions with
    | none => true
    | some l => l.isEmpty
  let c1 :=
    if emotionsMissing then
      let derived := (char.sprites.getD []).map Prod.fst
      { char with emotions := some (if derived.isEmpty then ["neutral"] else derived) }
    else char
  let indicatorMissing : Bool := c1.indicator.isNone
  let c2 :=
    if indicatorMissing then { c1 with indicator := some { name := "Affection", value := 50 } }
    else c1
  (c2, emotionsMissing || indicatorMissing)

/-- JavaScript truthiness of an optional string property
(`undefined` and the empty string are falsy). -/
def truthyStr : Option String → Bool
  | none => false
  | some s => !s.isEmpty

/-- The import filter `c => c && c.id && c.name && c.sprites` of
`handleImportCharacters`.  A present `sprites` object is truthy even
when it has no keys. -/
def qualifies (c : RawCharacter) : Bool :=
  truthyStr c.id && truthyStr c.name && c.sprites.isSome

/-- The per-record back-fill inside `handleImportCharacters`: seed the
indicator when missing; derive `emotions` from the sprites keys when
missing or empty.  Unlike the load-time migration, there is no final
`['neutral']` fallback when the derived key list is empty.  The filter
guarantees `sprites` is present at every call site, so `getD []` is
only a totalization. -/
def importMigrate (char : RawCharacter) : RawCharacter :=
  let c1 :=
    if char.indicator.isNone then
      { char with indicator := some { name := "Affection", value := 50 } }
    else char
  let emotionsMissing : Bool :=
    match c1.emotions with
    | none => true
    | some l => l.isEmpty
  if emotionsMissing then { c1 with emotions := some ((c1.sprites.getD []).map Prod.fst) }
  else c1

/-- `saveCharacter` on the character object store: an IndexedDB `put`
keyed by `id` replaces the record with the same key or adds a new one. -/
def upsertCharacter (store : List RawCharacter) (c : RawCharacter) : List RawCharacter :=
  if store.any (fun x => x.id == c.id) then
    store.map (fun x => if x.id == c.id then c else x)
  else store ++ [c]

/-- `handleImportCharacters(importedData)`.  `none` models a non-array
file.  The result is the character store after the import:
`Except.error` carries the message of the thrown error (shown in the
`Import failed` alert; the store is untouched), `Except.ok` the store
after every qualifying record was back-filled and upserted. -/
def handleImportCharacters (importedData : Option (List RawCharacter))
    (store : List RawCharacter) : Except String (List RawCharacter) :=
  match importedData with
  | none => Except.error "Import file is not a valid character array."
  | some arr =>
    let charactersToImport := arr.filter qualifies
    if charactersToImport.isEmpty then
      Except.error "No valid character data found in file."
    else
      Except.ok (charactersToImport.foldl (fun st c => upsertCharacter st (importMigrate c)) store)

/-- A raw record with every optional field absent (for building concrete
test records). -/
def emptyRaw : RawCharacter :=
  { id := none, name := none, personality := none, visualDescription := none
    greeting := none, emotions := none, sprites := none, sceneImageUrl := none
    indicator := none, systemInstruction := none }

/-- Concrete character used in witnesses. -/
def sampleCharacter : Character :=
  { id := "1", name := "Rin", personality := "cheerful", visualDescription := "red hair"
    greeting := none, emotions := ["neutral", "happy", "sad"]
    sprites := [("neutral", "neutral.png")], sceneImageUrl := none, transform := none
    indicator := { name := "Affection", value := 50 }, systemInstruction := none }

/-- The seeded greeting message of a fresh chat. -/
def greetingMessage : Message :=
  { id := "g", sender := Sender.ai, text := "Hello.", emotion := some "happy" }

/-- A concrete user turn. -/
def sampleUserMessage : Message :=
  { id := "u1", sender := Sender.user, text := "hi", emotion := none }

/-- A concrete model turn. -/
def sampleAiMessage : Message :=
  { id := "a1", sender := Sender.ai, text := "hey!", emotion := some "happy" }

/-- A session holding only the initial greeting. -/
def sampleSession : Session :=
  { messages := [greetingMessage], storedHistory := [greetingMessage]
    currentCharacter := sampleCharacter, storedCharacter := sampleCharacter
    modelHistory := convertMessagesToHistory [greetingMessage] }

/-- A session after one full exchange (greeting, user turn, model turn). -/
def sampleSession3 : Session :=
  { sampleSession with
    messages := [greetingMessage, sampleUserMessage, sampleAiMessage]
    storedHistory := [greetingMessage, sampleUserMessage, sampleAiMessage] }

/-- A raw model reply whose indicator value 150 exceeds the upper bound. -/
def c1Json : String :=
  "\x7b\"dialogue\":\"hi\",\"emotion\":\"happy\",\"indicatorValue\":150\x7d"

/-- A well-formed JSON reply body. -/
def c3Inner : String := "\x7b\"dialogue\":\"hey!\",\"emotion\":\"happy\"\x7d"

/-- The same body wrapped in an untagged markdown fence. -/
def c3Untagged : String :=
  "```\x7b\"dialogue\":\"hey!\",\"emotion\":\"happy\"\x7d```"

/-- The same body wrapped in a ```json-tagged markdown fence. -/
def c3Tagged : String :=
  "```json\x7b\"dialogue\":\"hey!\",\"emotion\":\"happy\"\x7d```"

/-- The parse of `c3Inner`. -/
def c3Obj : Json :=
  Json.obj [("dialogue", Json.str "hey!"), ("emotion", Json.str "happy")]

/-- The reply carried by `c3Inner`. -/
def c3Reply : Reply := { dialogue := "hey!", emotion := "happy", indicatorValue := none }

/-- An import record that qualifies (truthy id, name, sprites) but whose
sprites object has no keys and whose emotions are absent. -/
def c8Record : RawCharacter :=
  { emptyRaw with id := some "1", name := some "A", sprites := some [] }

/-- A well-formed model reply used as the regenerated answer. -/
def c6Json : String := "\x7b\"dialogue\":\"again!\",\"emotion\":\"happy\"\x7d"

/-- A found index is inside the list. -/
theorem findIndex_lt_length {msgs : List Message} {messageId : String} {i : Nat}
    (h : findIndex msgs messageId = some i) : i < msgs.length := by
  induction msgs generalizing i with
  | nil => simp [findIndex] at h
  | cons m rest ih =>
    by_cases hm : m.id = messageId
    · simp [findIndex, hm] at h
      simp only [List.length_cons]
      omega
    · simp only [findIndex, hm, if_false, Option.map_eq_some'] at h
      obtain ⟨j, hj, rfl⟩ := h
      have := ih hj
      simp only [List.length_cons]
      omega

/-- The element at a found index exists and carries the looked-up id. -/
theorem findIndex_getElem? {msgs : List Message} {messageId : String} {i : Nat}
    (h : findIndex msgs messageId = some i) :
    ∃ msg, msgs[i]? = some msg ∧ msg.id = messageId := by
  induction msgs generalizing i with
  | nil => simp [findIndex] at h
  | cons m rest ih =>
    by_cases hm : m.id = messageId
    · simp [findIndex, hm] at h
      subst h
      exact ⟨m, by simp, hm⟩
    · simp only [findIndex, hm, if_false, Option.map_eq_some'] at h
      obtain ⟨j, hj, rfl⟩ := h
      obtain ⟨msg, hmsg, hid⟩ := ih hj
      exact ⟨msg, by simpa using hmsg, hid⟩

/-- Claim C7: character migration is idempotent — applying the
`loadData` migration (derive `emotions` from the sprites keys with a
`['neutral']` fallback when missing or empty; seed `indicator` with
`{name: 'Affection', value: 50}` when missing) twice to any character
record yields the same record as applying it once. -/
theorem c7_migration_idempotent (char : RawCharacter) :
    (migrateCharacter (migrateCharacter char).1).1 = (migrateCharacter char).1 := by
  unfold migrateCharacter
  rcases hE : char.emotions with _ | l
  · rcases hD : (char.sprites.getD []).map Prod.fst with _ | ⟨k, ks⟩ <;>
      rcases hI : char.indicator with _ | iv <;>
      simp [hE, hD, hI]
  · rcases hL : l.isEmpty with _ | _
    · rcases hI : char.indicator with _ | iv <;> simp [hE, hL, hI]
    · rcases hD : (char.sprites.getD []).map Prod.fst with _ | ⟨k, ks⟩ <;>
        rcases hI : char.indicator with _ | iv <;>
        simp [hE, hL, hD, hI]

/-- Claim C1: every indicator update accepted from a parsed model reply
during Send (`indicatorValue !== null`), and every manual indicator
override, persists `Math.max(0, Math.min(100, v))` on the character
record: the value lies in `[0, 100]`, a raw value below 0 is stored as
0, above 100 as 100, and an in-range value is stored unchanged.  Both
the in-memory and the persisted character record carry the clamped
value. -/
theorem c1_indicator_clamped (s : Session) (c : Character) (userInput : String)
    (isRegeneration : Bool) (now : Nat) (modelResult : Except Unit String) (v : Rat)
    (htrim : ¬ jsTrim userInput = "")
    (hacc : (getAIResponse modelResult).indicatorValue = some v) :
    ((handleSendMessage s userInput isRegeneration now modelResult).storedCharacter.indicator.value
        = max 0 (min 100 v)
      ∧ (handleSendMessage s userInput isRegeneration now modelResult).currentCharacter.indicator.value
        = max 0 (min 100 v))
    ∧ (handleUpdateIndicator c v).indicator.value = max 0 (min 100 v)
    ∧ (0 : Rat) ≤ max 0 (min 100 v) ∧ max 0 (min 100 v) ≤ (100 : Rat)
    ∧ (v < 0 → max 0 (min 100 v) = 0)
    ∧ (100 < v → max 0 (min 100 v) = 100)
    ∧ (0 ≤ v → v ≤ 100 → max 0 (min 100 v) = v) := by
  refine ⟨⟨?_, ?_⟩, ?_, ?_, ?_, ?_, ?_, ?_⟩
  · simp [handleSendMessage, htrim, hacc]
  · simp [handleSendMessage, htrim, hacc]
  · simp [handleUpdateIndicator]
  · exact le_max_left _ _
  · exact max_le (by norm_num) (min_le_left _ _)
  · intro hv
    rw [min_eq_right (by linarith), max_eq_left (by linarith)]
  · intro hv
    rw [min_eq_left (by linarith), max_eq_right (by norm_num)]
  · intro h0 h100
    rw [min_eq_right h100, max_eq_right h0]

/-- Witness for C1 at a concrete session and the out-of-range raw value
150: the persisted value is exactly 100. -/
theorem c1_indicator_clamped_witness :
    ¬ jsTrim "hi" = ""
    ∧ (getAIResponse (Except.ok c1Json)).indicatorValue = some 150
    ∧ (handleSendMessage sampleSession "hi" false 0 (Except.ok c1Json)).storedCharacter.indicator.value = 100
    ∧ (handleUpdateIndicator sampleCharacter 150).indicator.value = 100 := by
  have h1 : ¬ jsTrim "hi" = "" := by decide
  have h2 : (getAIResponse (Except.ok c1Json)).indicatorValue = some (150 : Rat) := by decide
  have h := c1_indicator_clamped sampleSession sampleCharacter "hi" false 0 (Except.ok c1Json) 150 h1 h2
  have h100 : max 0 (min 100 (150 : Rat)) = 100 := h.2.2.2.2.2.1 (by norm_num)
  exact ⟨h1, h2, by rw [h.1.1, h100], by rw [h.2.1, h100]⟩

/-- Claim C4: for a log containing a message with id `messageId` at
position `i`, `handleEditMessage` yields an in-memory and persisted log
of length `i + 1` whose last element has the new text; all messages
after position `i` are discarded. -/
theorem c4_edit_truncates (s : Session) (messageId newText : String) (i : Nat)
    (h : findIndex s.messages messageId = some i) :
    (handleEditMessage s messageId newText).messages.length = i + 1
    ∧ (handleEditMessage s messageId newText).storedHistory
        = (handleEditMessage s messageId newText).messages
    ∧ ∃ lastMsg, (handleEditMessage s messageId newText).messages.getLast? = some lastMsg
        ∧ lastMsg.text = newText := by
  have hlt := findIndex_lt_length h
  obtain ⟨msg, hget, -⟩ := findIndex_getElem? h
  have htake : (s.messages.take (i + 1))[i]? = some msg := by
    rw [List.getElem?_take]
    simp [hget]
  have hlen : ((s.messages.take (i + 1)).set i { msg with text := newText }).length = i + 1 := by
    rw [List.length_set, List.length_take]
    omega
  refine ⟨?_, ?_, ?_⟩
  · simp only [handleEditMessage, h, htake, initChat]
    exact hlen
  · simp only [handleEditMessage, h, htake, initChat]
  · simp only [handleEditMessage, h, htake, initChat]
    refine ⟨{ msg with text := newText }, ?_, rfl⟩
    rw [List.getLast?_eq_getElem?, hlen]
    have hmin : i < min (i + 1) s.messages.length := by omega
    simp [List.getElem?_set, List.length_take, hmin]

/-- Witness for C4 at a concrete three-message log, editing the message
at position 1. -/
theorem c4_edit_truncates_witness :
    findIndex sampleSession3.messages "u1" = some 1
    ∧ ((handleEditMessage sampleSession3 "u1" "new text").messages.length = 1 + 1
        ∧ (handleEditMessage sampleSession3 "u1" "new text").storedHistory
            = (handleEditMessage sampleSession3 "u1" "new text").messages
        ∧ ∃ lastMsg, (handleEditMessage sampleSession3 "u1" "new text").messages.getLast?
              = some lastMsg ∧ lastMsg.text = "new text") := by
  have h : findIndex sampleSession3.messages "u1" = some 1 := by decide
  exact ⟨h, c4_edit_truncates sampleSession3 "u1" "new text" 1 h⟩

/-- Claim C5: for a log containing a message with id `messageId` at
position `i`, `handleDeleteMessage` yields an in-memory and persisted
log of length exactly `i`: the deleted message and everything after it
are removed, and the `i` messages before it are kept. -/
theorem c5_delete_truncates (s : Session) (messageId : String) (i : Nat)
    (h : findIndex s.messages messageId = some i) :
    (handleDeleteMessage s messageId).messages.length = i
    ∧ (handleDeleteMessage s messageId).messages = s.messages.take i
    ∧ (handleDeleteMessage s messageId).storedHistory
        = (handleDeleteMessage s messageId).messages := by
  have hlt := findIndex_lt_length h
  refine ⟨?_, ?_, ?_⟩
  · simp only [handleDeleteMessage, h, initChat]
    rw [List.length_take]
    omega
  · simp only [handleDeleteMessage, h, initChat]
  · simp only [handleDeleteMessage, h, initChat]

/-- Witness for C5 at a concrete three-message log, deleting the message
at position 1. -/
theorem c5_delete_truncates_witness :
    findIndex sampleSession3.messages "u1" = some 1
    ∧ ((handleDeleteMessage sampleSession3 "u1").messages.length = 1
        ∧ (handleDeleteMessage sampleSession3 "u1").messages = sampleSession3.messages.take 1
        ∧ (handleDeleteMessage sampleSession3 "u1").storedHistory
            = (handleDeleteMessage sampleSession3 "u1").messages) := by
  have h : findIndex sampleSession3.messages "u1" = some 1 := by decide
  exact ⟨h, c5_delete_truncates sampleSession3 "u1" 1 h⟩

/-- Claim C10 (frame property of Edit): `handleEditMessage` leaves the
messages at positions `0..i-1` unchanged and changes only the `text`
field of the message at position `i`; its `id`, `sender` and `emotion`
are preserved. -/
theorem c10_edit_frame (s : Session) (messageId newText : String) (i : Nat)
    (h : findIndex s.messages messageId = some i) :
    (∀ k, k < i → (handleEditMessage s messageId newText).messages[k]? = s.messages[k]?)
    ∧ ∃ old, s.messages[i]? = some old
        ∧ (handleEditMessage s messageId newText).messages[i]?
            = some { old with text := newText }
        ∧ ({ old with text := newText } : Message).id = old.id
        ∧ ({ old with text := newText } : Message).sender = old.sender
        ∧ ({ old with text := newText } : Message).emotion = old.emotion := by
  have hlt := findIndex_lt_length h
  obtain ⟨msg, hget, -⟩ := findIndex_getElem? h
  have htake : (s.messages.take (i + 1))[i]? = some msg := by
    rw [List.getElem?_take]
    simp [hget]
  constructor
  · intro k hk
    simp only [handleEditMessage, h, htake, initChat]
    rw [List.getElem?_set]
    rw [if_neg (by omega), List.getElem?_take, if_pos (by omega)]
  · refine ⟨msg, hget, ?_, rfl, rfl, rfl⟩
    simp only [handleEditMessage, h, htake, initChat]
    rw [List.getElem?_set]
    rw [if_pos rfl, List.length_take, if_pos (by omega)]

/-- Witness for C10 at a concrete three-message log, editing the message
at position 1: position 0 is untouched and position 1 keeps id, sender
and emotion. -/
theorem c10_edit_frame_witness :
    findIndex sampleSession3.messages "u1" = some 1
    ∧ (∀ k, k < 1 → (handleEditMessage sampleSession3 "u1" "new text").messages[k]?
          = sampleSession3.messages[k]?)
    ∧ ∃ old, sampleSession3.messages[1]? = some old
        ∧ (handleEditMessage sampleSession3 "u1" "new text").messages[1]?
            = some { old with text := "new text" }
        ∧ ({ old with text := "new text" } : Message).id = old.id
        ∧ ({ old with text := "new text" } : Message).sender = old.sender
        ∧ ({ old with text := "new text" } : Message).emotion = old.emotion := by
  have h : findIndex sampleSession3.messages "u1" = some 1 := by decide
  exact ⟨h, c10_edit_frame sampleSession3 "u1" "new text" 1 h⟩

/-- Claim C2: response parsing is total — for any input string the
result is a reply (either the successfully parsed one or the fixed
fallback), and on any parse or validation failure (parse error of the
fence-stripped text, or missing/non-string `dialogue`/`emotion`) the
result is exactly the fixed fallback reply: the apology dialogue,
emotion `'sad'`, and an absent indicator value. -/
theorem c2_parsing_total_with_fixed_fallback (raw : String) :
    (getAIResponse (Except.ok raw) = fallbackReply
      ∨ ∃ j r, jsonParse (stripFence (jsTrim raw)) = some j ∧ extractReply j = some r
          ∧ getAIResponse (Except.ok raw) = r)
    ∧ (jsonParse (stripFence (jsTrim raw)) = none →
        getAIResponse (Except.ok raw) = fallbackReply)
    ∧ (∀ j, jsonParse (stripFence (jsTrim raw)) = some j → extractReply j = none →
        getAIResponse (Except.ok raw) = fallbackReply)
    ∧ fallbackReply.dialogue = "I\x27m sorry, I had trouble forming a response."
    ∧ fallbackReply.emotion = "sad"
    ∧ fallbackReply.indicatorValue = none := by
  have hdef : getAIResponse (Except.ok raw) =
      (match jsonParse (stripFence (jsTrim raw)) with
       | none => fallbackReply
       | some parsed =>
         match extractReply parsed with
         | some r => r
         | none => fallbackReply) := rfl
  refine ⟨?_, ?_, ?_, rfl, rfl, rfl⟩
  · rcases hp : jsonParse (stripFence (jsTrim raw)) with _ | j
    · exact Or.inl (by simp only [hdef, hp])
    · rcases he : extractReply j with _ | r
      · exact Or.inl (by simp only [hdef, hp, he])
      · exact Or.inr ⟨j, r, rfl, he, by simp only [hdef, hp, he]⟩
  · intro hp
    simp only [hdef, hp]
  · intro j hp he
    simp only [hdef, hp, he]

/-- Witness for C2 at the concrete failing inputs of the claim: the
empty string and non-JSON text both produce the fixed fallback. -/
theorem c2_parsing_total_witness :
    jsonParse (stripFence (jsTrim "not json")) = none
    ∧ getAIResponse (Except.ok "not json") = fallbackReply
    ∧ getAIResponse (Except.ok "") = fallbackReply := by
  have h1 : jsonParse (stripFence (jsTrim "not json")) = none := by rfl
  have h2 : jsonParse (stripFence (jsTrim "")) = none := by rfl
  exact ⟨h1, (c2_parsing_total_with_fixed_fallback "not json").2.1 h1,
    (c2_parsing_total_with_fixed_fallback "").2.1 h2⟩

/-- Counterexample to claim C3 as stated: a well-formed JSON reply
wrapped in an UNTAGGED markdown fence does NOT yield the parsed reply.
The enclosed content alone parses and validates to the reply
`{dialogue: "hey!", emotion: "happy"}`, but on the fenced text only the
trailing ```` ``` ```` is stripped (the opening fence is stripped only
when it reads exactly ```` ```json ````), so parsing fails and the fixed
fallback is returned instead. -/
theorem c3_fence_counterexample :
    jsonParse c3Inner = some c3Obj
    ∧ extractReply c3Obj = some c3Reply
    ∧ jsTrim c3Untagged = "```" ++ c3Inner ++ "```"
    ∧ getAIResponse (Except.ok c3Untagged) = fallbackReply
    ∧ fallbackReply ≠ c3Reply := by
  refine ⟨by rfl, by rfl, by rfl, by rfl, by decide⟩

/-- Claim C3 amended: whenever the fence-stripped trimmed text parses as
JSON and validates, the parser returns that parsed reply rather than the
fallback; the fence delimiters are stripped only for a leading
```` ```json ```` tag (seven characters) and a trailing ```` ``` ````, so
in particular a well-formed JSON reply inside a ```` ```json ````-tagged
fence yields the parsed reply. -/
theorem c3_tagged_fence_parses (raw : String) (j : Json) (r : Reply)
    (hparse : jsonParse (stripFence (jsTrim raw)) = some j)
    (hvalid : extractReply j = some r) :
    getAIResponse (Except.ok raw) = r
    ∧ stripFence (jsTrim c3Tagged) = c3Inner
    ∧ getAIResponse (Except.ok c3Tagged) = c3Reply := by
  have hdef : getAIResponse (Except.ok raw) =
      (match jsonParse (stripFence (jsTrim raw)) with
       | none => fallbackReply
       | some parsed =>
         match extractReply parsed with
         | some r => r
         | none => fallbackReply) := rfl
  refine ⟨?_, by rfl, by rfl⟩
  simp only [hdef, hparse, hvalid]

/-- Witness for the amended C3 at the concrete ```json-tagged fence. -/
theorem c3_tagged_fence_parses_witness :
    jsonParse (stripFence (jsTrim c3Tagged)) = some c3Obj
    ∧ extractReply c3Obj = some c3Reply
    ∧ getAIResponse (Except.ok c3Tagged) = c3Reply := by
  have h1 : jsonParse (stripFence (jsTrim c3Tagged)) = some c3Obj := by rfl
  have h2 : extractReply c3Obj = some c3Reply := by rfl
  exact ⟨h1, h2, (c3_tagged_fence_parses c3Tagged c3Obj c3Reply h1 h2).1⟩

/-- Claim C6, code bug at the failing input: the guards behave as the
claim says — on the greeting-only log Regenerate is rejected with the
user-visible notice and neither the in-memory log nor the persisted
history changes — but when it proceeds the trailing `ai` message is NOT
removed from the final log.  On the log `[ai greeting, user "hi",
ai "hey!"]` with a successful regenerated reply, the notice is absent
(Regenerate proceeded), the model-side context was rebuilt from the
truncated log, and the preceding user text was re-sent, yet the nested
send closes over the stale pre-truncation `messages` state, so the
final in-memory and persisted log is the ORIGINAL log — the old trailing
`ai` reply still at position 2 — with the new reply appended after it,
contradicting the claimed (and intended) removal. -/
theorem c6_regenerate_stale_closure :
    handleRegenerate sampleSession 7 (Except.ok c6Json) = (sampleSession, some regenerateNotice)
    ∧ (handleRegenerate sampleSession3 7 (Except.ok c6Json)).2 = none
    ∧ (handleRegenerate sampleSession3 7 (Except.ok c6Json)).1.messages
        = sampleSession3.messages
            ++ [{ id := "7-ai", sender := Sender.ai, text := "again!", emotion := some "happy" }]
    ∧ (handleRegenerate sampleSession3 7 (Except.ok c6Json)).1.storedHistory
        = (handleRegenerate sampleSession3 7 (Except.ok c6Json)).1.messages
    ∧ sampleSession3.messages.getLast? = some sampleAiMessage
    ∧ sampleAiMessage.sender = Sender.ai
    ∧ (handleRegenerate sampleSession3 7 (Except.ok c6Json)).1.messages[2]? = some sampleAiMessage
    ∧ (handleRegenerate sampleSession3 7 (Except.ok c6Json)).1.modelHistory
        = convertMessagesToHistory sampleSession3.messages.dropLast := by
  refine ⟨by decide, by decide, by decide, by decide, by decide, by decide, by decide, by decide⟩

/-- Counterexample to claim C9 as stated: in a Send whose model-client
call fails, the appended message has sender `ai` (the fallback apology
produced inside `getAIResponse`), not sender `system` — the resulting
log contains no `system` message at all. -/
theorem c9_model_failure_counterexample :
    (handleSendMessage sampleSession "hi" false 0 (Except.error ())).messages =
      [greetingMessage, mkUserMessage 0 "hi",
        { id := "0-ai", sender := Sender.ai,
          text := "I\x27m sorry, I had trouble forming a response.", emotion := some "sad" }]
    ∧ ((handleSendMessage sampleSession "hi" false 0 (Except.error ())).messages.getLast?).map
        Message.sender = some Sender.ai
    ∧ ((handleSendMessage sampleSession "hi" false 0 (Except.error ())).messages.all
        (fun m => !decide (m.sender = Sender.system))) = true
    ∧ Sender.ai ≠ Sender.system := by
  refine ⟨by decide, by decide, by decide, by decide⟩

/-- Claim C9 amended: for every Send in which the model-client call
fails, `getAIResponse` absorbs the failure and returns the fixed
fallback reply, so the engine appends an `ai` message carrying the
apology dialogue and emotion `'sad'` and persists the updated log; the
character record is untouched (the fallback has no indicator value) and
the failure never propagates out of the session — a `system` error
message would be appended only if a step after the model call (a
persistence write) threw. -/
theorem c9_model_failure_recovered (s : Session) (userInput : String) (now : Nat)
    (htrim : ¬ jsTrim userInput = "") :
    (handleSendMessage s userInput false now (Except.error ())).messages
      = s.messages ++ [mkUserMessage now userInput,
          { id := toString now ++ "-ai", sender := Sender.ai,
            text := "I\x27m sorry, I had trouble forming a response.",
            emotion := some "sad" }]
    ∧ (handleSendMessage s userInput false now (Except.error ())).storedHistory
        = (handleSendMessage s userInput false now (Except.error ())).messages
    ∧ (handleSendMessage s userInput false now (Except.error ())).currentCharacter
        = s.currentCharacter
    ∧ (handleSendMessage s userInput false now (Except.error ())).storedCharacter
        = s.storedCharacter := by
  have hfb : getAIResponse (Except.error ()) = fallbackReply := rfl
  have hre : resolveEmotion "sad" s.currentCharacter.emotions = "sad" := by
    simp [resolveEmotion]
  refine ⟨?_, ?_, ?_, ?_⟩ <;>
    simp [handleSendMessage, htrim, hfb, hre, fallbackReply]

/-- Witness for the amended C9 at a concrete session. -/
theorem c9_model_failure_recovered_witness :
    ¬ jsTrim "hi" = ""
    ∧ (handleSendMessage sampleSession "hi" false 0 (Except.error ())).messages
        = sampleSession.messages ++ [mkUserMessage 0 "hi",
            { id := toString 0 ++ "-ai", sender := Sender.ai,
              text := "I\x27m sorry, I had trouble forming a response.",
              emotion := some "sad" }] := by
  have h : ¬ jsTrim "hi" = "" := by decide
  exact ⟨h, (c9_model_failure_recovered sampleSession "hi" 0 h).1⟩

/-- Counterexample to claim C8 as stated: import does NOT apply the same
migration rules as character-load migration.  A qualifying record with a
present-but-empty sprites object and no emotions is upserted with an
EMPTY emotions list, while the load migration would have stored the
single default label `['neutral']`; the batch is accepted, not rejected. -/
theorem c8_import_counterexample :
    qualifies c8Record = true
    ∧ handleImportCharacters (some [c8Record]) [] = Except.ok [importMigrate c8Record]
    ∧ (importMigrate c8Record).emotions = some []
    ∧ ((migrateCharacter c8Record).1).emotions = some ["neutral"]
    ∧ importMigrate c8Record ≠ (migrateCharacter c8Record).1 := by
  refine ⟨by decide, by rfl, by decide, by decide, by decide⟩

/-- Claim C8 amended: import keeps exactly the records with truthy `id`,
`name` and `sprites`; the whole batch is rejected only when zero records
qualify (and when the file is not an array); each qualifying record is
back-filled — indicator seeded to `{name: 'Affection', value: 50}` when
missing, emotions derived from the sprites keys when missing or empty,
WITHOUT the load-migration's `['neutral']` fallback for an empty
derivation — and upserted by id. -/
theorem c8_import_filter_backfill_upsert (arr store : List RawCharacter) (c : RawCharacter) :
    handleImportCharacters none store = Except.error "Import file is not a valid character array."
    ∧ (arr.filter qualifies = [] →
        handleImportCharacters (some arr) store
          = Except.error "No valid character data found in file.")
    ∧ (arr.filter qualifies ≠ [] →
        handleImportCharacters (some arr) store
          = Except.ok ((arr.filter qualifies).foldl
              (fun st ch => upsertCharacter st (importMigrate ch)) store))
    ∧ (qualifies c = true ↔ truthyStr c.id = true ∧ truthyStr c.name = true ∧ c.sprites.isSome = true)
    ∧ (c.indicator = none →
        (importMigrate c).indicator = some { name := "Affection", value := 50 })
    ∧ (∀ iv, c.indicator = some iv → (importMigrate c).indicator = some iv)
    ∧ (c.emotions = none ∨ c.emotions = some [] →
        (importMigrate c).emotions = some ((c.sprites.getD []).map Prod.fst))
    ∧ (∀ l, c.emotions = some l → l ≠ [] → (importMigrate c).emotions = some l) := by
  refine ⟨rfl, ?_, ?_, ?_, ?_, ?_, ?_, ?_⟩
  · intro h
    simp only [handleImportCharacters, h, List.isEmpty_nil, if_true]
  · intro h
    simp only [handleImportCharacters]
    rw [if_neg (by simpa [List.isEmpty_iff] using h)]
  · simp [qualifies, Bool.and_eq_true, and_assoc]
  · intro h
    rcases he : c.emotions with _ | l
    · simp [importMigrate, h, he]
    · rcases hl : l.isEmpty with _ | _ <;> simp [importMigrate, h, he, hl]
  · intro iv h
    simp only [importMigrate, h, Option.isNone_some, Bool.false_eq_true, if_false]
    rcases he : c.emotions with _ | l
    · simp [he, h]
    · rcases hl : l.isEmpty with _ | _ <;> simp [he, hl, h]
  · intro h
    rcases h with h | h <;>
      · rcases hi : c.indicator with _ | iv <;>
          simp [importMigrate, h, hi]
  · intro l h hl
    have hne : l.isEmpty = false := by
      cases l with
      | nil => exact absurd rfl hl
      | cons x xs => rfl
    rcases hi : c.indicator with _ | iv <;> simp [importMigrate, h, hi, hne]

/-- Witness for the amended C8: a batch with one malformed record (no
sprites) and one well-formed record is not rejected wholesale; only the
well-formed record is upserted, with its indicator seeded. -/
theorem c8_import_filter_backfill_upsert_witness :
    ([{ emptyRaw with id := some "2", name := some "B" }, c8Record].filter qualifies ≠ [])
    ∧ handleImportCharacters (some [{ emptyRaw with id := some "2", name := some "B" }, c8Record]) []
        = Except.ok (([{ emptyRaw with id := some "2", name := some "B" }, c8Record].filter qualifies).foldl
            (fun st ch => upsertCharacter st (importMigrate ch)) [])
    ∧ handleImportCharacters (some [{ emptyRaw with id := some "2", name := some "B" }, c8Record]) []
        = Except.ok [{ c8Record with indicator := some { name := "Affection", value := 50 }
                                     emotions := some [] }]
    ∧ (c8Record.indicator = none →
        (importMigrate c8Record).indicator = some { name := "Affection", value := 50 }) := by
  have h : ([{ emptyRaw with id := some "2", name := some "B" }, c8Record].filter qualifies ≠ []) := by
    decide
  refine ⟨h, (c8_import_filter_backfill_upsert
      [{ emptyRaw with id := some "2", name := some "B" }, c8Record] [] c8Record).2.2.1 h,
    by rfl,
    (c8_import_filter_backfill_upsert
      [{ emptyRaw with id := some "2", name := some "B" }, c8Record] [] c8Record).2.2.2.2.1⟩
